import Mathlib

/-!
Verification of the HaulTrackr backend route-planning core.

The definitions below are a shallow embedding of the Python source:

* `haultrackrbackend/config.py` — the rule constants;
* `route_planner/services/stop_planner.py` — rest-stop planning
  (`_plan_rest_stops`) and the stop-merge scan (`_merge_stops`);
* `route_planner/views.py`, method `_generate_eld_logs` — the day-by-day
  hours-of-service simulation loop;
* `eld_logs/models.py`, property `DutyStatusChange.duration_hours`.

Times and distances are rational numbers (Python floats are used by the
source only on values produced by exact arithmetic in these code paths).
Simulated wall-clock instants are rational hours measured from midnight of
the start date; the datetime attributes hour and minute are recovered by
flooring.  The unbounded Python while loop of the simulator is represented
with an explicit fuel parameter: `runSim fuel` returns `none` exactly when
the loop is still running after `fuel` iterations, so `∀ fuel, runSim fuel
st = none` expresses non-termination.
-/

namespace HaulTrackr

/-! ### Rule constants (haultrackrbackend/config.py) -/

def FUEL_STOP_INTERVAL_MILES : ℚ := 1000

def MAX_DRIVING_HOURS : ℚ := 11

def MAX_ON_DUTY_HOURS : ℚ := 14

def REQUIRED_REST_HOURS : ℚ := 10

def MAX_WEEKLY_HOURS : ℚ := 70

/-! ### Stops (route_planner/services/stop_planner.py) -/

inductive StopType
  | FUEL
  | REST
  | BOTH
deriving DecidableEq

structure Stop where
  distance : ℚ
  time : ℚ
  type : StopType
  duration : ℚ
deriving DecidableEq

/-- Default stop used with List.getD. -/
def dStop : Stop := { distance := 0, time := 0, type := StopType.FUEL, duration := 0 }

/-- Ordering of stops by the distance key, as used by the sort in
`_merge_stops`. -/
def distLE (a b : Stop) : Prop := a.distance ≤ b.distance

instance : DecidableRel distLE := fun a b => inferInstanceAs (Decidable (a.distance ≤ b.distance))

instance : IsTotal Stop distLE := ⟨fun a b => le_total a.distance b.distance⟩

instance : IsTrans Stop distLE := ⟨fun _ _ _ hab hbc => le_trans hab hbc⟩

/-- Relation between consecutive merged stops: the later one lies at least
50 miles further along the route. -/
def distFar (a b : Stop) : Prop := a.distance + 50 ≤ b.distance

instance : IsTrans Stop distFar := ⟨fun a b c hab hbc => by
  unfold distFar at *; linarith⟩

/-- The inner while loop of `_merge_stops`: starting from the stop
`cur` (a copy of the run starter), absorb every following stop whose
distance is within 50 miles of the run starter, turning the current stop
into type BOTH and keeping the maximal duration.  Returns the merged stop
and the remaining unprocessed list. -/
def absorbRun (cur : Stop) : List Stop → Stop × List Stop
  | [] => (cur, [])
  | y :: ys =>
    if |y.distance - cur.distance| < 50 then
      absorbRun { cur with type := StopType.BOTH, duration := max cur.duration y.duration } ys
    else
      (cur, y :: ys)

/-- The outer while loop of `_merge_stops` over the distance-sorted list. -/
def mergeScan (l : List Stop) : List Stop :=
  match l with
  | [] => []
  | x :: rest => (absorbRun x rest).1 :: mergeScan (absorbRun x rest).2
termination_by l.length
decreasing_by
  have key : ∀ (c : Stop) (t : List Stop), (absorbRun c t).2.length ≤ t.length := by
    intro c t
    induction t generalizing c with
    | nil => simp [absorbRun]
    | cons y ys ih =>
      simp only [absorbRun]
      split
      · exact le_trans (ih _) (Nat.le_succ _)
      · simp
  simp only [List.length_cons]
  exact Nat.lt_succ_of_le (key _ _)

/-- Python list.sort keyed on distance (a stable comparison sort). -/
def sortByDistance (l : List Stop) : List Stop := l.insertionSort distLE

/-- `_merge_stops(fuel_stops, rest_stops)`: concatenate, sort by distance,
then scan merging runs of stops lying within 50 miles of the run starter. -/
def mergeStops (fuelStops restStops : List Stop) : List Stop :=
  mergeScan (sortByDistance (fuelStops ++ restStops))

/-- The while loop of `_plan_rest_stops`: while the elapsed driving clock
has not exhausted the total duration, either schedule a rest stop after
the next MAX_DRIVING_HOURS of driving and advance the clock by
MAX_DRIVING_HOURS + REQUIRED_REST_HOURS, or break. -/
def planRestStopsLoop (totalDuration totalDistance : ℚ) (cur : ℚ) : List Stop :=
  if h1 : cur < totalDuration then
    if h2 : cur + MAX_DRIVING_HOURS < totalDuration then
      { distance := (cur + MAX_DRIVING_HOURS) / totalDuration * totalDistance,
        time := cur + MAX_DRIVING_HOURS,
        type := StopType.REST,
        duration := REQUIRED_REST_HOURS } ::
        planRestStopsLoop totalDuration totalDistance
          (cur + (MAX_DRIVING_HOURS + REQUIRED_REST_HOURS))
    else []
  else []
termination_by (Int.ceil (totalDuration - cur)).toNat
decreasing_by
  have hM : MAX_DRIVING_HOURS = (11 : ℚ) := rfl
  have hR : REQUIRED_REST_HOURS = (10 : ℚ) := rfl
  simp only [hM, hR] at h2 ⊢
  have h11 : (11 : ℤ) < Int.ceil (totalDuration - cur) := by
    rw [Int.lt_ceil]
    push_cast
    linarith
  have heq : Int.ceil (totalDuration - (cur + (11 + 10))) =
      Int.ceil (totalDuration - cur) - 21 := by
    rw [show totalDuration - (cur + (11 + 10)) = (totalDuration - cur) - ((21 : ℤ) : ℚ) by
      push_cast; ring]
    exact Int.ceil_sub_int _ _
  rw [heq]
  omega

/-- `_plan_rest_stops` starts the elapsed driving clock at zero. -/
def planRestStops (totalDuration totalDistance : ℚ) : List Stop :=
  planRestStopsLoop totalDuration totalDistance 0

/-! ### Duty status changes (eld_logs/models.py) -/

/-- A Python datetime.time value carrying hour and minute. -/
structure TimeHM where
  hour : ℕ
  minute : ℕ
deriving DecidableEq

/-- `DutyStatusChange.duration_hours`: minutes-since-midnight difference,
with a 24 h adjustment when the end time is before the start time. -/
def duration_hours (startT endT : TimeHM) : ℚ :=
  let startMinutes : ℤ := startT.hour * 60 + startT.minute
  let endMinutes : ℤ := endT.hour * 60 + endT.minute
  let adjusted : ℤ := if endMinutes < startMinutes then endMinutes + 24 * 60 else endMinutes
  ((adjusted - startMinutes : ℤ) : ℚ) / 60

/-! ### The HOS day simulator (route_planner/views.py, _generate_eld_logs)

Simulated instants are rational hours since midnight of the start date.
-/

/-- The hour attribute of the datetime holding `t` hours since the epoch
midnight. -/
def hourOf (t : ℚ) : ℤ := Int.floor t % 24

/-- The minute attribute of the same datetime. -/
def minuteOf (t : ℚ) : ℤ := Int.floor (t * 60) % 60

/-- Minutes within the day, the information content of strftime with
format HH:MM. -/
def hmOf (t : ℚ) : ℤ := Int.floor (t * 60) % 1440

inductive DutyStat
  | OFF
  | SB
  | D
  | ON
deriving DecidableEq

/-- One activity entry of a daily log sheet.  Start and end are the
minute-precision clock readings the code renders with strftime; the
trailing off-duty entry hard-codes the end reading 24:00, stored as
1440. -/
structure Activity where
  status : DutyStat
  startMin : ℤ
  endMin : ℤ
  duration : ℚ
  location : Option String
  notes : Option String
deriving DecidableEq

def isDriving (a : Activity) : Bool :=
  match a.status with
  | DutyStat.D => true
  | _ => false

def isOnDutyTotal (a : Activity) : Bool :=
  match a.status with
  | DutyStat.D => true
  | DutyStat.ON => true
  | _ => false

/-- One daily log sheet as assembled by `_generate_eld_logs` (the date is
kept as a day index counted from the start date). -/
structure LogSheet where
  date : ℕ
  activities : List Activity
  total_drive : ℚ
  total_on_duty : ℚ
  total_off_duty : ℚ
deriving DecidableEq

/-- Default sheet used with List.getD. -/
def dSheet : LogSheet :=
  { date := 0, activities := [], total_drive := 0, total_on_duty := 0, total_off_duty := 0 }

/-- The inputs the simulation reads: route duration and first-leg duration
already converted from seconds to hours, the cycle hours used, the
time of day at which the simulation starts (datetime.now), and the two
location labels of the trip. -/
structure SimCfg where
  totalDriveTime : ℚ
  firstLegDriveTime : ℚ
  cycleUsed : ℚ
  startTime : ℚ
  pickupLocation : String
  dropoffLocation : String
deriving DecidableEq

/-- The loop state of `_generate_eld_logs`. -/
structure SimState where
  elapsed : ℚ
  simTime : ℚ
  day : ℕ
  remDrive : ℚ
  remOnDuty : ℚ
  remCycle : ℚ
  logs : List LogSheet
deriving DecidableEq

def initState (cfg : SimCfg) : SimState :=
  { elapsed := 0, simTime := cfg.startTime, day := 0,
    remDrive := MAX_DRIVING_HOURS, remOnDuty := MAX_ON_DUTY_HOURS,
    remCycle := MAX_WEEKLY_HOURS - cfg.cycleUsed, logs := [] }

/-- The fixed overnight off-duty block written on every day after the
first (8 of the 10 required rest hours). -/
def restActivity : Activity :=
  { status := DutyStat.OFF, startMin := 0, endMin := 480, duration := 8,
    location := none, notes := none }

def preTripAct (t : ℚ) : Activity :=
  { status := DutyStat.ON, startMin := hmOf t, endMin := hmOf (t + 1/4), duration := 1/4,
    location := none, notes := none }

def driveAct (t a : ℚ) : Activity :=
  { status := DutyStat.D, startMin := hmOf t, endMin := hmOf (t + a), duration := a,
    location := none, notes := none }

def pickupAct (cfg : SimCfg) (t : ℚ) : Activity :=
  { status := DutyStat.ON, startMin := hmOf t, endMin := hmOf (t + 1), duration := 1,
    location := some cfg.pickupLocation, notes := some "Pickup" }

def dropoffAct (cfg : SimCfg) (t : ℚ) : Activity :=
  { status := DutyStat.ON, startMin := hmOf t, endMin := hmOf (t + 1), duration := 1,
    location := some cfg.dropoffLocation, notes := some "Dropoff" }

def trailOffAct (t : ℚ) (d : ℤ) : Activity :=
  { status := DutyStat.OFF, startMin := hmOf t, endMin := 1440, duration := (d : ℚ),
    location := none, notes := none }

/-- Clock reading at which the pre-trip inspection starts: on later days
the 8 hour rest block has been walked through first. -/
def dT0 (st : SimState) : ℚ := if st.logs.isEmpty then st.simTime else st.simTime + 8

/-- Off-duty hours carried at the top of the day (0 on the first day, 8
afterwards). -/
def dOff0 (st : SimState) : ℚ := if st.logs.isEmpty then 0 else 8

/-- Daily driving budget in force for this day: the running value on the
first day, reset to MAX_DRIVING_HOURS on every later day. -/
def dRemDrive (st : SimState) : ℚ :=
  if st.logs.isEmpty then st.remDrive else MAX_DRIVING_HOURS

/-- Daily on-duty budget in force for this day. -/
def dRemOnDuty (st : SimState) : ℚ :=
  if st.logs.isEmpty then st.remOnDuty else MAX_ON_DUTY_HOURS

/-- Activities after the optional rest block and the 15 minute pre-trip
inspection. -/
def dActsA (st : SimState) : List Activity :=
  (if st.logs.isEmpty then [] else [restActivity]) ++ [preTripAct (dT0 st)]

/-- available_drive_time = min(remaining daily drive, remaining daily
on-duty after the inspection, remaining cycle, remaining trip drive). -/
def dAvail (cfg : SimCfg) (st : SimState) : ℚ :=
  min (min (dRemDrive st) (dRemOnDuty st - 1/4))
    (min st.remCycle (cfg.totalDriveTime - st.elapsed))

/-- Activities after the driving block, added only when the available
drive time is positive. -/
def dActsB (cfg : SimCfg) (st : SimState) : List Activity :=
  dActsA st ++
    (if 0 < dAvail cfg st then [driveAct (dT0 st + 1/4) (dAvail cfg st)] else [])

/-- total_elapsed_drive_time after the driving block. -/
def dElapsed (cfg : SimCfg) (st : SimState) : ℚ :=
  st.elapsed + (if 0 < dAvail cfg st then dAvail cfg st else 0)

/-- Clock reading after the driving block. -/
def dT2 (cfg : SimCfg) (st : SimState) : ℚ :=
  dT0 st + 1/4 + (if 0 < dAvail cfg st then dAvail cfg st else 0)

/-- Guard of the pickup branch: elapsed driving has reached the first leg
duration and the sheet has fewer than four activities so far. -/
def dPickupP (cfg : SimCfg) (st : SimState) : Prop :=
  cfg.firstLegDriveTime ≤ dElapsed cfg st ∧ (dActsB cfg st).length < 4

instance (cfg : SimCfg) (st : SimState) : Decidable (dPickupP cfg st) :=
  inferInstanceAs (Decidable (_ ∧ _))

/-- Activities after the pickup / dropoff branch (an elif chain in the
source). -/
def dActsC (cfg : SimCfg) (st : SimState) : List Activity :=
  dActsB cfg st ++
    (if dPickupP cfg st then [pickupAct cfg (dT2 cfg st)]
     else if cfg.totalDriveTime ≤ dElapsed cfg st then [dropoffAct cfg (dT2 cfg st)]
     else [])

/-- Clock reading after the pickup / dropoff branch. -/
def dT3 (cfg : SimCfg) (st : SimState) : ℚ :=
  dT2 cfg st +
    (if dPickupP cfg st then 1
     else if cfg.totalDriveTime ≤ dElapsed cfg st then 1
     else 0)

/-- day_on_duty_time at the end of the day. -/
def dOnDuty3 (cfg : SimCfg) (st : SimState) : ℚ :=
  1/4 + (if 0 < dAvail cfg st then dAvail cfg st else 0) +
    (if dPickupP cfg st then 1
     else if cfg.totalDriveTime ≤ dElapsed cfg st then 1
     else 0)

/-- remaining_on_duty_time at the end of the day (the dropoff hour is not
subtracted by the source). -/
def dRemOnDuty3 (cfg : SimCfg) (st : SimState) : ℚ :=
  dRemOnDuty st - 1/4 - (if 0 < dAvail cfg st then dAvail cfg st else 0) -
    (if dPickupP cfg st then 1 else 0)

/-- off_duty_hours = 24 - hour - (1 if minutes are nonzero else 0). -/
def dOffVal (cfg : SimCfg) (st : SimState) : ℤ :=
  24 - hourOf (dT3 cfg st) - (if 0 < minuteOf (dT3 cfg st) then 1 else 0)

/-- Activities after the trailing off-duty block. -/
def dActsD (cfg : SimCfg) (st : SimState) : List Activity :=
  dActsC cfg st ++
    (if hourOf (dT3 cfg st) < 24 ∧ 0 < dOffVal cfg st then
      [trailOffAct (dT3 cfg st) (dOffVal cfg st)]
     else [])

/-- day_off_duty_time at the end of the day. -/
def dOffTotal (cfg : SimCfg) (st : SimState) : ℚ :=
  dOff0 st +
    (if hourOf (dT3 cfg st) < 24 ∧ 0 < dOffVal cfg st then ((dOffVal cfg st : ℤ) : ℚ)
     else 0)

/-- The log sheet emitted for the current day. -/
def sheetOf (cfg : SimCfg) (st : SimState) : LogSheet :=
  { date := st.day,
    activities := dActsD cfg st,
    total_drive := if 0 < dAvail cfg st then dAvail cfg st else 0,
    total_on_duty := dOnDuty3 cfg st,
    total_off_duty := dOffTotal cfg st }

/-- One iteration of the while loop: emit the log sheet of the day and
move to midnight of the next calendar day. -/
def dayStep (cfg : SimCfg) (st : SimState) : SimState :=
  { elapsed := dElapsed cfg st,
    simTime := ((st.day : ℚ) + 1) * 24,
    day := st.day + 1,
    remDrive := dRemDrive st - (if 0 < dAvail cfg st then dAvail cfg st else 0),
    remOnDuty := dRemOnDuty3 cfg st,
    remCycle := st.remCycle - (if 0 < dAvail cfg st then dAvail cfg st else 0),
    logs := st.logs ++ [sheetOf cfg st] }

/-- The while loop with an explicit fuel bound: `none` means the loop is
still running after the given number of iterations. -/
def runSim (cfg : SimCfg) : ℕ → SimState → Option (List LogSheet)
  | 0, st => if st.elapsed < cfg.totalDriveTime then none else some st.logs
  | fuel + 1, st =>
    if st.elapsed < cfg.totalDriveTime then runSim cfg fuel (dayStep cfg st)
    else some st.logs

/-- `_generate_eld_logs` from its initial state. -/
def generateEldLogs (cfg : SimCfg) (fuel : ℕ) : Option (List LogSheet) :=
  runSim cfg fuel (initState cfg)

/-! ### Aggregates over emitted logs -/

/-- Sum of all recorded durations of one sheet. -/
def sheetDurSum (s : LogSheet) : ℚ := (s.activities.map Activity.duration).sum

/-- Sum of the durations of the Driving segments of one sheet. -/
def dutyDriveSumSheet (s : LogSheet) : ℚ :=
  ((s.activities.filter isDriving).map Activity.duration).sum

/-- Sum of the durations of the Driving and On-Duty-not-driving segments
of one sheet. -/
def dutyOnSumSheet (s : LogSheet) : ℚ :=
  ((s.activities.filter isOnDutyTotal).map Activity.duration).sum

/-- Cumulative Driving duration across all emitted days. -/
def drivingDurSum (logs : List LogSheet) : ℚ := (logs.map dutyDriveSumSheet).sum

/-- Number of activities across all days labelled with the given note. -/
def noteCount (n : String) (logs : List LogSheet) : ℕ :=
  ((logs.map LogSheet.activities).flatten.filter (fun a => decide (a.notes = some n))).length

/-! ### Concrete inputs used by the counterexamples and witnesses -/

/-- A two day trip: 12 h of total driving (route duration 43200 s), first
leg 1 h, fresh weekly cycle, simulation starting at midnight. -/
def cfgA : SimCfg :=
  { totalDriveTime := 12, firstLegDriveTime := 1, cycleUsed := 0, startTime := 0,
    pickupLocation := "P", dropoffLocation := "Q" }

/-- A 1 h trip requested with the weekly cycle entirely used up. -/
def badCfg : SimCfg :=
  { totalDriveTime := 1, firstLegDriveTime := 1, cycleUsed := 70, startTime := 0,
    pickupLocation := "P", dropoffLocation := "Q" }

/-- A trip with zero total drive time. -/
def cfgZero : SimCfg :=
  { totalDriveTime := 0, firstLegDriveTime := 0, cycleUsed := 0, startTime := 0,
    pickupLocation := "P", dropoffLocation := "Q" }

/-- Invariant carried around the simulation loop: on the first day the
running budgets still hold their initial values, the remaining cycle
mirrors the elapsed driving, the emitted Driving segments sum to the
elapsed driving, and after k full days the elapsed driving is
min(k * MAX_DRIVING_HOURS, total). -/
def SimInv (cfg : SimCfg) (st : SimState) : Prop :=
  (st.logs = [] → st.remDrive = MAX_DRIVING_HOURS ∧ st.remOnDuty = MAX_ON_DUTY_HOURS) ∧
  st.remCycle = (MAX_WEEKLY_HOURS - cfg.cycleUsed) - st.elapsed ∧
  drivingDurSum st.logs = st.elapsed ∧
  st.elapsed = min (MAX_DRIVING_HOURS * st.logs.length) cfg.totalDriveTime

/-- The sheet emitted for day one of the cfgA run. -/
def sheetA1 : LogSheet :=
  { date := 0,
    activities :=
      [{ status := DutyStat.ON, startMin := 0, endMin := 15, duration := 1/4,
         location := none, notes := none },
       { status := DutyStat.D, startMin := 15, endMin := 675, duration := 11,
         location := none, notes := none },
       { status := DutyStat.ON, startMin := 675, endMin := 735, duration := 1,
         location := some "P", notes := some "Pickup" },
       { status := DutyStat.OFF, startMin := 735, endMin := 1440, duration := 11,
         location := none, notes := none }],
    total_drive := 11, total_on_duty := 49/4, total_off_duty := 11 }

/-- The sheet emitted for day two of the cfgA run. -/
def sheetA2 : LogSheet :=
  { date := 1,
    activities :=
      [{ status := DutyStat.OFF, startMin := 0, endMin := 480, duration := 8,
         location := none, notes := none },
       { status := DutyStat.ON, startMin := 480, endMin := 495, duration := 1/4,
         location := none, notes := none },
       { status := DutyStat.D, startMin := 495, endMin := 555, duration := 1,
         location := none, notes := none },
       { status := DutyStat.ON, startMin := 555, endMin := 615, duration := 1,
         location := some "P", notes := some "Pickup" },
       { status := DutyStat.OFF, startMin := 615, endMin := 1440, duration := 13,
         location := none, notes := none }],
    total_drive := 1, total_on_duty := 9/4, total_off_duty := 21 }

/-- The simulation state after day one of the cfgA run. -/
def stA1 : SimState :=
  { elapsed := 11, simTime := 24, day := 1, remDrive := 0, remOnDuty := 7/4,
    remCycle := 59, logs := [sheetA1] }

/-- The simulation state after day two of the cfgA run. -/
def stA2 : SimState :=
  { elapsed := 12, simTime := 48, day := 2, remDrive := 10, remOnDuty := 47/4,
    remCycle := 58, logs := [sheetA1, sheetA2] }

/-! ### Theory of the stop merge scan -/

theorem absorbRun_snd_length (cur : Stop) (l : List Stop) :
    (absorbRun cur l).2.length ≤ l.length := by
  induction l generalizing cur with
  | nil => simp [absorbRun]
  | cons y ys ih =>
    simp only [absorbRun]
    split
    · exact le_trans (ih _) (Nat.le_succ _)
    · simp

theorem absorbRun_fst_distance (cur : Stop) (l : List Stop) :
    ((absorbRun cur l).1).distance = cur.distance := by
  induction l generalizing cur with
  | nil => simp [absorbRun]
  | cons y ys ih =>
    simp only [absorbRun]
    split
    · rw [ih]
    · rfl

theorem absorbRun_snd_suffix (cur : Stop) (l : List Stop) :
    (absorbRun cur l).2 <:+ l := by
  induction l generalizing cur with
  | nil => simp [absorbRun]
  | cons y ys ih =>
    simp only [absorbRun]
    split
    · exact (ih _).trans (List.suffix_cons y ys)
    · exact List.suffix_refl _

theorem absorbRun_snd_head (cur : Stop) (l : List Stop)
    (hall : ∀ x ∈ l, cur.distance ≤ x.distance) (z : Stop) (zs : List Stop)
    (heq : (absorbRun cur l).2 = z :: zs) : cur.distance + 50 ≤ z.distance := by
  induction l generalizing cur with
  | nil => simp [absorbRun] at heq
  | cons y ys ih =>
    simp only [absorbRun] at heq
    split at heq
    · exact ih { cur with type := StopType.BOTH, duration := max cur.duration y.duration }
        (fun x hx => hall x (List.mem_cons_of_mem _ hx)) heq
    · rename_i hfar
      have heq2 : y :: ys = z :: zs := heq
      injection heq2 with hy hys
      subst hy
      have hle : cur.distance ≤ y.distance := hall y (List.mem_cons_self _ _)
      rw [abs_of_nonneg (by linarith)] at hfar
      linarith [not_lt.mp hfar]

theorem mergeScan_nil : mergeScan [] = [] := by
  rw [mergeScan]

theorem mergeScan_cons (x : Stop) (rest : List Stop) :
    mergeScan (x :: rest) = (absorbRun x rest).1 :: mergeScan ((absorbRun x rest).2) := by
  rw [mergeScan]

theorem mergeScan_headDist (l : List Stop) :
    (mergeScan l).head?.map Stop.distance = l.head?.map Stop.distance := by
  cases l with
  | nil => simp [mergeScan_nil]
  | cons x rest => rw [mergeScan_cons]; simp [absorbRun_fst_distance]

theorem mergeScan_chain : ∀ (n : ℕ) (l : List Stop), l.length ≤ n →
    l.Pairwise distLE → List.Chain' distFar (mergeScan l) := by
  intro n
  induction n with
  | zero =>
    intro l hl _
    have : l = [] := List.eq_nil_of_length_eq_zero (Nat.le_zero.mp hl)
    subst this
    simp [mergeScan_nil]
  | succ n ih =>
    intro l hl hp
    cases l with
    | nil => simp [mergeScan_nil]
    | cons x rest =>
      rw [mergeScan_cons, List.chain'_cons']
      constructor
      · intro y hy
        cases hsnd : (absorbRun x rest).2 with
        | nil => rw [hsnd] at hy; simp [mergeScan_nil] at hy
        | cons z zs =>
          rw [hsnd] at hy
          have hh := mergeScan_headDist (z :: zs)
          rw [Option.mem_def] at hy
          rw [hy] at hh
          simp only [Option.map_some', List.head?_cons] at hh
          have hyd : y.distance = z.distance := by simpa using hh
          show distFar (absorbRun x rest).1 y
          unfold distFar
          rw [absorbRun_fst_distance, hyd]
          exact absorbRun_snd_head x rest
            (fun w hw => (List.pairwise_cons.mp hp).1 w hw) z zs hsnd
      · apply ih
        · have h1 := absorbRun_snd_length x rest
          have h2 : rest.length + 1 ≤ n + 1 := by simpa using hl
          omega
        · exact List.Pairwise.sublist (absorbRun_snd_suffix x rest).sublist
            (List.pairwise_cons.mp hp).2

theorem mergeScan_fixed (l : List Stop) (h : List.Chain' distFar l) : mergeScan l = l := by
  induction l with
  | nil => exact mergeScan_nil
  | cons x rest ih =>
    cases rest with
    | nil => rw [mergeScan_cons]; simp [absorbRun, mergeScan_nil]
    | cons y ys =>
      have hxy : distFar x y := (List.chain'_cons.mp h).1
      have habs : absorbRun x (y :: ys) = (x, y :: ys) := by
        simp only [absorbRun]
        rw [if_neg]
        unfold distFar at hxy
        rw [abs_of_nonneg (by linarith)]
        exact not_lt.mpr (by linarith)
      rw [mergeScan_cons, habs]
      simp only
      rw [ih ((List.chain'_cons.mp h).2)]

/-- Claim C10: the output of the stop merge is in strictly increasing
distance order and consecutive output stops lie at least 50 miles apart,
because a merge run only ends at a stop at least 50 miles beyond the
distance of the first stop of the run. -/
theorem merge_output_spaced (fuelStops restStops : List Stop) :
    List.Chain' (fun a b => a.distance < b.distance ∧ a.distance + 50 ≤ b.distance)
      (mergeStops fuelStops restStops) := by
  have hs : (sortByDistance (fuelStops ++ restStops)).Pairwise distLE :=
    List.sorted_insertionSort distLE (fuelStops ++ restStops)
  have hc := mergeScan_chain (sortByDistance (fuelStops ++ restStops)).length _ le_rfl hs
  refine List.Chain'.imp ?_ hc
  intro a b hab
  unfold distFar at hab
  exact ⟨by linarith, hab⟩

/-- Claim C7: the stop merge is idempotent; merging an already merged
stop list (with no further stops to add) returns it unchanged. -/
theorem merge_idempotent (fuelStops restStops : List Stop) :
    mergeStops (mergeStops fuelStops restStops) [] = mergeStops fuelStops restStops := by
  have hs : (sortByDistance (fuelStops ++ restStops)).Pairwise distLE :=
    List.sorted_insertionSort distLE (fuelStops ++ restStops)
  have hchain : List.Chain' distFar (mergeStops fuelStops restStops) :=
    mergeScan_chain (sortByDistance (fuelStops ++ restStops)).length _ le_rfl hs
  have hpair : (mergeStops fuelStops restStops).Pairwise distFar :=
    List.chain'_iff_pairwise.mp hchain
  have hLE : (mergeStops fuelStops restStops).Pairwise distLE := by
    refine hpair.imp ?_
    intro a b hab
    unfold distFar at hab
    unfold distLE
    linarith
  show mergeScan (sortByDistance (mergeStops fuelStops restStops ++ [])) = _
  rw [List.append_nil]
  have hsort : sortByDistance (mergeStops fuelStops restStops) =
      mergeStops fuelStops restStops := List.Sorted.insertionSort_eq hLE
  rw [hsort]
  exact mergeScan_fixed _ hchain

/-! ### Theory of rest stop planning -/

theorem planRestStopsLoop_spec : ∀ (n : ℕ) (totalDuration totalDistance cur : ℚ),
    (Int.ceil (totalDuration - cur)).toNat ≤ n →
    (∀ k, k < (planRestStopsLoop totalDuration totalDistance cur).length →
      ((planRestStopsLoop totalDuration totalDistance cur).getD k dStop).time =
        cur + MAX_DRIVING_HOURS + (MAX_DRIVING_HOURS + REQUIRED_REST_HOURS) * k ∧
      cur + (MAX_DRIVING_HOURS + REQUIRED_REST_HOURS) * k + MAX_DRIVING_HOURS <
        totalDuration) ∧
    ¬(cur + (MAX_DRIVING_HOURS + REQUIRED_REST_HOURS) *
        (planRestStopsLoop totalDuration totalDistance cur).length +
        MAX_DRIVING_HOURS < totalDuration) := by
  have hM : MAX_DRIVING_HOURS = (11 : ℚ) := rfl
  have hR : REQUIRED_REST_HOURS = (10 : ℚ) := rfl
  intro n
  induction n with
  | zero =>
    intro td dist cur hn
    have hle : td ≤ cur := by
      have h1 : Int.ceil (td - cur) ≤ 0 := by omega
      have h2 : td - cur ≤ ((0 : ℤ) : ℚ) := le_trans (Int.le_ceil _) (by exact_mod_cast h1)
      push_cast at h2
      linarith
    have hnil : planRestStopsLoop td dist cur = [] := by
      rw [planRestStopsLoop, dif_neg (not_lt.mpr hle)]
    rw [hnil]
    refine ⟨fun k hk => absurd hk (by simp), ?_⟩
    simp only [List.length_nil, Nat.cast_zero, mul_zero, add_zero]
    rw [hM]
    intro hcon
    linarith
  | succ n ih =>
    intro td dist cur hn
    by_cases hcond : cur + MAX_DRIVING_HOURS < td
    · have hlt : cur < td := by rw [hM] at hcond; linarith
      have hunfold : planRestStopsLoop td dist cur =
          { distance := (cur + MAX_DRIVING_HOURS) / td * dist,
            time := cur + MAX_DRIVING_HOURS,
            type := StopType.REST,
            duration := REQUIRED_REST_HOURS } ::
            planRestStopsLoop td dist (cur + (MAX_DRIVING_HOURS + REQUIRED_REST_HOURS)) := by
        rw [planRestStopsLoop, dif_pos hlt, dif_pos hcond]
      have hmeas : (Int.ceil (td - (cur + (MAX_DRIVING_HOURS + REQUIRED_REST_HOURS)))).toNat ≤ n := by
        rw [hM, hR]
        have h11 : (11 : ℤ) < Int.ceil (td - cur) := by
          rw [Int.lt_ceil]
          push_cast
          rw [hM] at hcond
          linarith
        have heq : Int.ceil (td - (cur + (11 + 10))) = Int.ceil (td - cur) - 21 := by
          rw [show td - (cur + (11 + 10)) = (td - cur) - ((21 : ℤ) : ℚ) by push_cast; ring]
          exact Int.ceil_sub_int _ _
        rw [heq]
        omega
      obtain ⟨ihA, ihB⟩ := ih td dist (cur + (MAX_DRIVING_HOURS + REQUIRED_REST_HOURS)) hmeas
      rw [hunfold]
      constructor
      · intro k hk
        cases k with
        | zero =>
          constructor
          · simp
          · simpa using hcond
        | succ j =>
          have hj : j < (planRestStopsLoop td dist
              (cur + (MAX_DRIVING_HOURS + REQUIRED_REST_HOURS))).length := by
            simpa using hk
          obtain ⟨h1, h2⟩ := ihA j hj
          constructor
          · simp only [List.getD_cons_succ]
            rw [h1]
            push_cast
            ring
          · rw [hM, hR] at h2 ⊢
            push_cast at h2 ⊢
            linarith
      · simp only [List.length_cons]
        rw [hM, hR] at ihB ⊢
        push_cast at ihB ⊢
        intro hcon
        apply ihB
        linarith
    · have hnil : planRestStopsLoop td dist cur = [] := by
        by_cases hlt : cur < td
        · rw [planRestStopsLoop, dif_pos hlt, dif_neg hcond]
        · rw [planRestStopsLoop, dif_neg hlt]
      rw [hnil]
      refine ⟨fun k hk => absurd hk (by simp), ?_⟩
      simp only [List.length_nil, Nat.cast_zero, mul_zero, add_zero]
      exact hcond

/-- Claim C8: rest stop planning starts from zero elapsed driving time,
schedules a stop after every MAX_DRIVING_HOURS of driving while that would
still fall short of the total duration, advancing the clock by
MAX_DRIVING_HOURS + REQUIRED_REST_HOURS per iteration; in particular a
25 hour route gets exactly one rest stop, at elapsed time 11 hours. -/
theorem rest_stops_spec :
    (∀ totalDuration totalDistance : ℚ, 0 < totalDuration →
      (∀ k, k < (planRestStops totalDuration totalDistance).length →
        ((planRestStops totalDuration totalDistance).getD k dStop).time =
          MAX_DRIVING_HOURS + (MAX_DRIVING_HOURS + REQUIRED_REST_HOURS) * k ∧
        (MAX_DRIVING_HOURS + REQUIRED_REST_HOURS) * k + MAX_DRIVING_HOURS <
          totalDuration) ∧
      ¬((MAX_DRIVING_HOURS + REQUIRED_REST_HOURS) *
          (planRestStops totalDuration totalDistance).length +
          MAX_DRIVING_HOURS < totalDuration)) ∧
    planRestStops 25 100 =
      [{ distance := 44, time := 11, type := StopType.REST, duration := 10 }] := by
  constructor
  · intro td dist _h
    obtain ⟨hA, hB⟩ :=
      planRestStopsLoop_spec ((Int.ceil (td - 0)).toNat) td dist 0 le_rfl
    unfold planRestStops
    constructor
    · intro k hk
      obtain ⟨h1, h2⟩ := hA k hk
      exact ⟨by rw [h1]; ring, by linarith⟩
    · intro hcon
      exact hB (by linarith)
  · unfold planRestStops
    rw [planRestStopsLoop,
      dif_pos (by norm_num : (0:ℚ) < 25),
      dif_pos (by norm_num [MAX_DRIVING_HOURS] : (0:ℚ) + MAX_DRIVING_HOURS < 25),
      planRestStopsLoop,
      dif_pos (by norm_num [MAX_DRIVING_HOURS, REQUIRED_REST_HOURS] :
        (0:ℚ) + (MAX_DRIVING_HOURS + REQUIRED_REST_HOURS) < 25),
      dif_neg (by norm_num [MAX_DRIVING_HOURS, REQUIRED_REST_HOURS] :
        ¬((0:ℚ) + (MAX_DRIVING_HOURS + REQUIRED_REST_HOURS) + MAX_DRIVING_HOURS < 25))]
    norm_num [MAX_DRIVING_HOURS, REQUIRED_REST_HOURS]

/-- Witness for rest_stops_spec at totalDuration 25, totalDistance 100,
first stop index 0. -/
theorem rest_stops_spec_witness :
    (0:ℚ) < 25 ∧
    ((planRestStops 25 100).getD 0 dStop).time =
      MAX_DRIVING_HOURS + (MAX_DRIVING_HOURS + REQUIRED_REST_HOURS) * ((0:ℕ) : ℚ) := by
  have hlen : 0 < (planRestStops 25 100).length := by
    rw [rest_stops_spec.2]
    norm_num
  exact ⟨by norm_num, ((rest_stops_spec.1 25 100 (by norm_num)).1 0 hlen).1⟩

/-- Claim C9: the duty status change duration is the minutes since
midnight difference with a 24 hour adjustment when the end reading is
before the start reading, hence never negative for valid clock readings;
a segment from 22:00 to 02:00 lasts exactly 4 hours. -/
theorem duration_hours_spec :
    (∀ s e : TimeHM, s.hour ≤ 23 → s.minute ≤ 59 → e.hour ≤ 23 → e.minute ≤ 59 →
      0 ≤ duration_hours s e) ∧
    duration_hours ⟨22, 0⟩ ⟨2, 0⟩ = 4 := by
  constructor
  · intro s e hs hsm _he _hem
    unfold duration_hours
    simp only
    apply div_nonneg _ (by norm_num)
    split_ifs with h
    · have h1 : (s.hour : ℤ) * 60 + (s.minute : ℤ) ≤ 1439 := by
        have : (s.hour : ℤ) ≤ 23 := by exact_mod_cast hs
        have : (s.minute : ℤ) ≤ 59 := by exact_mod_cast hsm
        omega
      have h2 : (0 : ℤ) ≤ (e.hour : ℤ) * 60 + (e.minute : ℤ) := by positivity
      have : (0 : ℤ) ≤ (e.hour : ℤ) * 60 + (e.minute : ℤ) + 24 * 60 -
          ((s.hour : ℤ) * 60 + (s.minute : ℤ)) := by omega
      exact_mod_cast this
    · have : (0 : ℤ) ≤ (e.hour : ℤ) * 60 + (e.minute : ℤ) -
          ((s.hour : ℤ) * 60 + (s.minute : ℤ)) := by omega
      exact_mod_cast this
  · norm_num [duration_hours]

/-- Witness for duration_hours_spec at the latest valid start reading and
midnight end reading. -/
theorem duration_hours_spec_witness : 0 ≤ duration_hours ⟨23, 59⟩ ⟨0, 0⟩ :=
  duration_hours_spec.1 ⟨23, 59⟩ ⟨0, 0⟩ (by norm_num) (by norm_num) (by norm_num) (by norm_num)

/-! ### Theory of the day simulator -/

theorem runSim_zero (cfg : SimCfg) (st : SimState) :
    runSim cfg 0 st = if st.elapsed < cfg.totalDriveTime then none else some st.logs := rfl

theorem runSim_succ (cfg : SimCfg) (fuel : ℕ) (st : SimState) :
    runSim cfg (fuel + 1) st =
      if st.elapsed < cfg.totalDriveTime then runSim cfg fuel (dayStep cfg st)
      else some st.logs := rfl

theorem dAvail_le_remCycle (cfg : SimCfg) (st : SimState) : dAvail cfg st ≤ st.remCycle :=
  le_trans (min_le_right _ _) (min_le_left _ _)

theorem dAvail_le_dRemDrive (cfg : SimCfg) (st : SimState) : dAvail cfg st ≤ dRemDrive st :=
  le_trans (min_le_left _ _) (min_le_left _ _)

theorem dayStep_stuck (cfg : SimCfg) (st : SimState) (h : ¬ 0 < dAvail cfg st) :
    (dayStep cfg st).elapsed = st.elapsed ∧ (dayStep cfg st).remCycle = st.remCycle := by
  constructor
  · show dElapsed cfg st = st.elapsed
    simp [dElapsed, h]
  · show st.remCycle - _ = st.remCycle
    simp [h]

theorem runSim_stuck (cfg : SimCfg) : ∀ (fuel : ℕ) (st : SimState),
    st.remCycle ≤ 0 → st.elapsed < cfg.totalDriveTime → runSim cfg fuel st = none := by
  intro fuel
  induction fuel with
  | zero =>
    intro st _h1 h2
    rw [runSim_zero, if_pos h2]
  | succ n ih =>
    intro st h1 h2
    rw [runSim_succ, if_pos h2]
    have hav : ¬ 0 < dAvail cfg st := not_lt.mpr (le_trans (dAvail_le_remCycle cfg st) h1)
    obtain ⟨he, hc⟩ := dayStep_stuck cfg st hav
    exact ih _ (by rw [hc]; exact h1) (by rw [he]; exact h2)

/-- Claim C3: refuted as stated.  With total drive time 1 hour and
cycle_hours_used = 70 (inside the allowed range [0, MAX_WEEKLY_HOURS]),
the loop makes no progress: the remaining cycle is 0 forever, so no
driving is ever scheduled, elapsed driving stays 0, and the loop never
terminates: for every fuel bound the simulation is still running.  No
configuration error is reported.  The claimed day bound would be
ceil(1/11) = 1. -/
theorem eld_sim_nonterminating : ∀ fuel : ℕ, generateEldLogs badCfg fuel = none := by
  intro fuel
  apply runSim_stuck
  · show (initState badCfg).remCycle ≤ 0
    norm_num [initState, badCfg, MAX_WEEKLY_HOURS]
  · show (initState badCfg).elapsed < badCfg.totalDriveTime
    norm_num [initState, badCfg]

theorem dRemDrive_of_inv (cfg : SimCfg) (st : SimState) (hinv : SimInv cfg st) :
    dRemDrive st = MAX_DRIVING_HOURS := by
  unfold dRemDrive
  split_ifs with h
  · exact (hinv.1 (List.isEmpty_iff.mp h)).1
  · rfl

theorem dRemOnDuty_of_inv (cfg : SimCfg) (st : SimState) (hinv : SimInv cfg st) :
    dRemOnDuty st = MAX_ON_DUTY_HOURS := by
  unfold dRemOnDuty
  split_ifs with h
  · exact (hinv.1 (List.isEmpty_iff.mp h)).2
  · rfl

theorem dAvail_of_inv (cfg : SimCfg) (st : SimState) (hinv : SimInv cfg st)
    (hsuf : cfg.totalDriveTime ≤ MAX_WEEKLY_HOURS - cfg.cycleUsed) :
    dAvail cfg st = min MAX_DRIVING_HOURS (cfg.totalDriveTime - st.elapsed) := by
  unfold dAvail
  rw [dRemDrive_of_inv cfg st hinv, dRemOnDuty_of_inv cfg st hinv]
  have h1 : min MAX_DRIVING_HOURS (MAX_ON_DUTY_HOURS - 1/4) = MAX_DRIVING_HOURS := by
    rw [min_def]
    norm_num [MAX_DRIVING_HOURS, MAX_ON_DUTY_HOURS]
  have h2 : min st.remCycle (cfg.totalDriveTime - st.elapsed) =
      cfg.totalDriveTime - st.elapsed := by
    apply min_eq_right
    rw [hinv.2.1]
    linarith
  rw [h1, h2]

theorem drivingDurSum_append (l1 l2 : List LogSheet) :
    drivingDurSum (l1 ++ l2) = drivingDurSum l1 + drivingDurSum l2 := by
  simp [drivingDurSum]

theorem sheetOf_driveSum (cfg : SimCfg) (st : SimState) :
    dutyDriveSumSheet (sheetOf cfg st) = if 0 < dAvail cfg st then dAvail cfg st else 0 := by
  unfold dutyDriveSumSheet sheetOf dActsD dActsC dActsB dActsA
  split_ifs <;>
    simp [isDriving, restActivity, preTripAct, driveAct, pickupAct, dropoffAct, trailOffAct,
      List.filter_append]

theorem sheetOf_onSum (cfg : SimCfg) (st : SimState) :
    dutyOnSumSheet (sheetOf cfg st) = dOnDuty3 cfg st := by
  unfold dutyOnSumSheet sheetOf dActsD dActsC dActsB dActsA dOnDuty3
  split_ifs <;>
    simp [isOnDutyTotal, restActivity, preTripAct, driveAct, pickupAct, dropoffAct,
      trailOffAct, List.filter_append] <;>
    ring

theorem dayStep_elapsed (cfg : SimCfg) (st : SimState) (h : 0 < dAvail cfg st) :
    (dayStep cfg st).elapsed = st.elapsed + dAvail cfg st := by
  show dElapsed cfg st = _
  simp [dElapsed, h]

theorem dayStep_logs (cfg : SimCfg) (st : SimState) :
    (dayStep cfg st).logs = st.logs ++ [sheetOf cfg st] := rfl

theorem dayStep_inv (cfg : SimCfg) (st : SimState) (hinv : SimInv cfg st)
    (hsuf : cfg.totalDriveTime ≤ MAX_WEEKLY_HOURS - cfg.cycleUsed)
    (hlt : st.elapsed < cfg.totalDriveTime) :
    SimInv cfg (dayStep cfg st) ∧
    (dayStep cfg st).elapsed =
      st.elapsed + min MAX_DRIVING_HOURS (cfg.totalDriveTime - st.elapsed) ∧
    (dayStep cfg st).logs.length = st.logs.length + 1 := by
  have hM : MAX_DRIVING_HOURS = (11 : ℚ) := rfl
  have hav := dAvail_of_inv cfg st hinv hsuf
  have hpos : 0 < dAvail cfg st := by
    rw [hav]
    apply lt_min
    · rw [hM]; norm_num
    · linarith
  have h11k : MAX_DRIVING_HOURS * (st.logs.length : ℚ) < cfg.totalDriveTime := by
    by_contra hge
    have := hinv.2.2.2
    rw [min_eq_right (not_lt.mp hge)] at this
    exact absurd this (ne_of_lt hlt)
  have helapsed : st.elapsed = MAX_DRIVING_HOURS * (st.logs.length : ℚ) := by
    have := hinv.2.2.2
    rwa [min_eq_left (le_of_lt h11k)] at this
  have he := dayStep_elapsed cfg st hpos
  refine ⟨⟨?_, ?_, ?_, ?_⟩, by rw [he, hav], ?_⟩
  · intro hcon
    rw [dayStep_logs] at hcon
    exact absurd hcon (by simp)
  · show st.remCycle - _ = _
    rw [if_pos hpos, hinv.2.1, he]
    ring
  · rw [dayStep_logs, drivingDurSum_append, hinv.2.2.1, he]
    have : drivingDurSum [sheetOf cfg st] = dutyDriveSumSheet (sheetOf cfg st) := by
      simp [drivingDurSum]
    rw [this, sheetOf_driveSum, if_pos hpos]
  · rw [he, hav, dayStep_logs]
    simp only [List.length_append, List.length_cons, List.length_nil]
    rcases le_total MAX_DRIVING_HOURS (cfg.totalDriveTime - st.elapsed) with hc | hc
    · rw [min_eq_left hc, helapsed]
      rw [min_eq_left]
      · push_cast
        ring
      · push_cast
        rw [hM] at *
        linarith
    · rw [min_eq_right hc, min_eq_right]
      · ring
      · push_cast
        rw [hM] at *
        linarith
  · rw [dayStep_logs]
    simp

theorem runSim_of_ge (cfg : SimCfg) (fuel : ℕ) (st : SimState)
    (h : ¬ st.elapsed < cfg.totalDriveTime) : runSim cfg fuel st = some st.logs := by
  cases fuel with
  | zero => rw [runSim_zero, if_neg h]
  | succ n => rw [runSim_succ, if_neg h]

theorem runSim_main (cfg : SimCfg)
    (hsuf : cfg.totalDriveTime ≤ MAX_WEEKLY_HOURS - cfg.cycleUsed) :
    ∀ (fuel : ℕ) (st : SimState), SimInv cfg st →
    MAX_DRIVING_HOURS * (st.logs.length : ℚ) < cfg.totalDriveTime + MAX_DRIVING_HOURS →
    cfg.totalDriveTime ≤ st.elapsed + MAX_DRIVING_HOURS * (fuel : ℚ) →
    ∃ L, runSim cfg fuel st = some L ∧ drivingDurSum L = cfg.totalDriveTime ∧
      cfg.totalDriveTime ≤ MAX_DRIVING_HOURS * (L.length : ℚ) ∧
      MAX_DRIVING_HOURS * (L.length : ℚ) < cfg.totalDriveTime + MAX_DRIVING_HOURS := by
  have hM : MAX_DRIVING_HOURS = (11 : ℚ) := rfl
  have hdone : ∀ (fuel : ℕ) (st : SimState), SimInv cfg st →
      MAX_DRIVING_HOURS * (st.logs.length : ℚ) < cfg.totalDriveTime + MAX_DRIVING_HOURS →
      ¬ st.elapsed < cfg.totalDriveTime →
      ∃ L, runSim cfg fuel st = some L ∧ drivingDurSum L = cfg.totalDriveTime ∧
        cfg.totalDriveTime ≤ MAX_DRIVING_HOURS * (L.length : ℚ) ∧
        MAX_DRIVING_HOURS * (L.length : ℚ) < cfg.totalDriveTime + MAX_DRIVING_HOURS := by
    intro fuel st hinv hlen hge
    refine ⟨st.logs, runSim_of_ge cfg fuel st hge, ?_, ?_, hlen⟩
    · rw [hinv.2.2.1]
      have hle : st.elapsed ≤ cfg.totalDriveTime := hinv.2.2.2 ▸ min_le_right _ _
      exact le_antisymm hle (not_lt.mp hge)
    · have heq : st.elapsed = cfg.totalDriveTime := by
        have hle : st.elapsed ≤ cfg.totalDriveTime := hinv.2.2.2 ▸ min_le_right _ _
        exact le_antisymm hle (not_lt.mp hge)
      have := hinv.2.2.2
      rw [heq] at this
      rcases min_cases (MAX_DRIVING_HOURS * (st.logs.length : ℚ)) cfg.totalDriveTime with
        ⟨hmin, hcmp⟩ | ⟨hmin, hcmp⟩
      · rw [hmin] at this
        rw [this] at hcmp
        linarith
      · linarith
  intro fuel
  induction fuel with
  | zero =>
    intro st hinv hlen hfuel
    apply hdone 0 st hinv hlen
    push_cast at hfuel
    intro hcon
    linarith
  | succ n ih =>
    intro st hinv hlen hfuel
    by_cases hlt : st.elapsed < cfg.totalDriveTime
    · obtain ⟨hinv2, helapsed, hlogs⟩ := dayStep_inv cfg st hinv hsuf hlt
      have h11k : MAX_DRIVING_HOURS * (st.logs.length : ℚ) < cfg.totalDriveTime := by
        by_contra hge
        have := hinv.2.2.2
        rw [min_eq_right (not_lt.mp hge)] at this
        exact absurd this (ne_of_lt hlt)
      have hlen2 : MAX_DRIVING_HOURS * ((dayStep cfg st).logs.length : ℚ) <
          cfg.totalDriveTime + MAX_DRIVING_HOURS := by
        rw [hlogs]
        push_cast
        rw [hM] at *
        linarith
      have hfuel2 : cfg.totalDriveTime ≤ (dayStep cfg st).elapsed +
          MAX_DRIVING_HOURS * (n : ℚ) := by
        rw [helapsed]
        rcases le_total MAX_DRIVING_HOURS (cfg.totalDriveTime - st.elapsed) with hc | hc
        · rw [min_eq_left hc]
          push_cast at hfuel
          rw [hM] at *
          linarith
        · rw [min_eq_right hc]
          have hnn : (0 : ℚ) ≤ MAX_DRIVING_HOURS * (n : ℚ) := by
            rw [hM]
            positivity
          linarith
      obtain ⟨L, hrun, hsum, hge2, hlt2⟩ := ih (dayStep cfg st) hinv2 hlen2 hfuel2
      exact ⟨L, by rw [runSim_succ, if_pos hlt]; exact hrun, hsum, hge2, hlt2⟩
    · exact hdone (n + 1) st hinv hlen hlt

theorem initState_inv (cfg : SimCfg) (h0 : 0 < cfg.totalDriveTime) :
    SimInv cfg (initState cfg) := by
  refine ⟨fun _ => ⟨rfl, rfl⟩, ?_, ?_, ?_⟩
  · show MAX_WEEKLY_HOURS - cfg.cycleUsed = MAX_WEEKLY_HOURS - cfg.cycleUsed - 0
    ring
  · simp [drivingDurSum, initState]
  · show (0 : ℚ) = min (MAX_DRIVING_HOURS * (([] : List LogSheet).length : ℚ))
        cfg.totalDriveTime
    simp only [List.length_nil, Nat.cast_zero, mul_zero]
    rw [min_eq_left (le_of_lt h0)]

/-- Claim C2: for a valid run (positive total drive time, weekly cycle
budget at least the total drive time) and any fuel bound covering
ceil(total / MAX_DRIVING_HOURS) days, the simulation terminates and the
Driving segment durations across all emitted days sum to exactly the
requested total drive time. -/
theorem driving_total_exact (cfg : SimCfg) (fuel : ℕ)
    (h0 : 0 < cfg.totalDriveTime)
    (hsuf : cfg.totalDriveTime ≤ MAX_WEEKLY_HOURS - cfg.cycleUsed)
    (hfuel : cfg.totalDriveTime ≤ MAX_DRIVING_HOURS * (fuel : ℚ)) :
    ∃ L, generateEldLogs cfg fuel = some L ∧ drivingDurSum L = cfg.totalDriveTime := by
  obtain ⟨L, hrun, hsum, _, _⟩ := runSim_main cfg hsuf fuel (initState cfg)
    (initState_inv cfg h0)
    (by
      show MAX_DRIVING_HOURS * (([] : List LogSheet).length : ℚ) < _
      simp only [List.length_nil, Nat.cast_zero, mul_zero]
      have : MAX_DRIVING_HOURS = (11 : ℚ) := rfl
      linarith)
    (by
      show cfg.totalDriveTime ≤ 0 + MAX_DRIVING_HOURS * (fuel : ℚ)
      linarith)
  exact ⟨L, hrun, hsum⟩

/-- Witness for driving_total_exact: the cfgA run with fuel 2. -/
theorem driving_total_exact_witness :
    ∃ L, generateEldLogs cfgA 2 = some L ∧ drivingDurSum L = cfgA.totalDriveTime :=
  driving_total_exact cfgA 2 (by norm_num [cfgA])
    (by norm_num [cfgA, MAX_WEEKLY_HOURS])
    (by norm_num [cfgA, MAX_DRIVING_HOURS])

theorem sheetOf_bounds (cfg : SimCfg) (st : SimState) (h : st.logs ≠ []) :
    dutyDriveSumSheet (sheetOf cfg st) ≤ MAX_DRIVING_HOURS ∧
    dutyOnSumSheet (sheetOf cfg st) ≤ MAX_ON_DUTY_HOURS := by
  have hM : MAX_DRIVING_HOURS = (11 : ℚ) := rfl
  have hO : MAX_ON_DUTY_HOURS = (14 : ℚ) := rfl
  have hrd : dRemDrive st = MAX_DRIVING_HOURS := by
    unfold dRemDrive
    split_ifs with hh
    · exact absurd (List.isEmpty_iff.mp hh) h
    · rfl
  have hav : dAvail cfg st ≤ MAX_DRIVING_HOURS := hrd ▸ dAvail_le_dRemDrive cfg st
  constructor
  · rw [sheetOf_driveSum]
    split_ifs with hp
    · exact hav
    · rw [hM]; norm_num
  · rw [sheetOf_onSum]
    unfold dOnDuty3
    rw [hM] at hav
    rw [hO]
    split_ifs <;> linarith

theorem runSim_tail_ok (cfg : SimCfg) : ∀ (fuel : ℕ) (st : SimState) (L : List LogSheet),
    runSim cfg fuel st = some L →
    (∀ i, 1 ≤ i → i < st.logs.length →
      dutyDriveSumSheet (st.logs.getD i dSheet) ≤ MAX_DRIVING_HOURS ∧
      dutyOnSumSheet (st.logs.getD i dSheet) ≤ MAX_ON_DUTY_HOURS) →
    ∀ i, 1 ≤ i → i < L.length →
      dutyDriveSumSheet (L.getD i dSheet) ≤ MAX_DRIVING_HOURS ∧
      dutyOnSumSheet (L.getD i dSheet) ≤ MAX_ON_DUTY_HOURS := by
  intro fuel
  induction fuel with
  | zero =>
    intro st L hrun hok
    rw [runSim_zero] at hrun
    split_ifs at hrun with h
    injection hrun with h2
    subst h2
    exact hok
  | succ n ih =>
    intro st L hrun hok
    rw [runSim_succ] at hrun
    split_ifs at hrun with h
    · apply ih (dayStep cfg st) L hrun
      intro i h1 hi
      rw [dayStep_logs] at hi ⊢
      simp only [List.length_append, List.length_cons, List.length_nil] at hi
      by_cases hlt : i < st.logs.length
      · rw [List.getD_append _ _ _ _ hlt]
        exact hok i h1 hlt
      · have hieq : i = st.logs.length := by omega
        subst hieq
        rw [List.getD_append_right _ _ _ _ (le_refl _)]
        simp only [Nat.sub_self, List.getD_cons_zero]
        apply sheetOf_bounds
        intro hnil
        rw [hnil] at h1
        simp at h1
    · injection hrun with h2
      subst h2
      exact hok

/-- Claim C5: in every terminating simulation run with valid inputs, every
emitted day after the first has Driving segment durations summing to at
most MAX_DRIVING_HOURS and Driving plus On-Duty durations (pre-trip
inspection and pickup or dropoff hour included) summing to at most
MAX_ON_DUTY_HOURS. -/
theorem later_days_within_caps (cfg : SimCfg) (fuel : ℕ) (L : List LogSheet)
    (h0 : 0 < cfg.totalDriveTime)
    (hsuf : cfg.totalDriveTime ≤ MAX_WEEKLY_HOURS - cfg.cycleUsed)
    (hrun : generateEldLogs cfg fuel = some L) :
    ∀ i, 1 ≤ i → i < L.length →
      dutyDriveSumSheet (L.getD i dSheet) ≤ MAX_DRIVING_HOURS ∧
      dutyOnSumSheet (L.getD i dSheet) ≤ MAX_ON_DUTY_HOURS := by
  apply runSim_tail_ok cfg fuel (initState cfg) L hrun
  intro i h1 hi
  simp [initState] at hi

/-! ### Concrete evaluation of the cfgA run -/

theorem availA1 : dAvail cfgA (initState cfgA) = 11 := by
  unfold dAvail dRemDrive dRemOnDuty initState cfgA
  simp only [List.isEmpty_nil, if_true]
  rw [min_def, min_def, min_def]
  norm_num [MAX_DRIVING_HOURS, MAX_ON_DUTY_HOURS, MAX_WEEKLY_HOURS]

theorem dT0A1 : dT0 (initState cfgA) = 0 := by
  simp [dT0, initState, cfgA]

theorem elapsedA1 : dElapsed cfgA (initState cfgA) = 11 := by
  unfold dElapsed
  rw [availA1]
  norm_num [initState]

theorem pickA1 : dPickupP cfgA (initState cfgA) := by
  unfold dPickupP
  constructor
  · rw [elapsedA1]
    norm_num [cfgA]
  · unfold dActsB dActsA
    rw [availA1]
    norm_num [initState]

theorem dT2A1 : dT2 cfgA (initState cfgA) = 45/4 := by
  unfold dT2
  rw [availA1, dT0A1]
  norm_num

theorem dT3A1 : dT3 cfgA (initState cfgA) = 49/4 := by
  unfold dT3
  rw [dT2A1, if_pos pickA1]
  norm_num

theorem dOffValA1 : dOffVal cfgA (initState cfgA) = 11 := by
  unfold dOffVal
  rw [dT3A1]
  norm_num [hourOf, minuteOf]

theorem sheetA1_eq : sheetOf cfgA (initState cfgA) = sheetA1 := by
  unfold sheetOf sheetA1
  simp only [LogSheet.mk.injEq]
  refine ⟨by simp [initState], ?_, ?_, ?_, ?_⟩
  · unfold dActsD dActsC dActsB dActsA
    rw [availA1, dT0A1, dT2A1, dT3A1, dOffValA1, if_pos pickA1]
    rw [if_pos (by norm_num : (0:ℚ) < 11)]
    have hc1 : hourOf (49/4 : ℚ) < 24 ∧ (0:ℤ) < 11 := by
      constructor
      · norm_num [hourOf]
      · norm_num
    rw [if_pos hc1]
    simp only [initState, List.isEmpty_nil, if_true]
    norm_num [preTripAct, driveAct, pickupAct, trailOffAct, hmOf, cfgA]
  · rw [availA1]
    norm_num
  · unfold dOnDuty3
    rw [availA1, if_pos pickA1]
    norm_num
  · unfold dOffTotal dOff0
    rw [dT3A1, dOffValA1]
    simp only [initState, List.isEmpty_nil, if_true]
    have hc1 : hourOf (49/4 : ℚ) < 24 ∧ (0:ℤ) < 11 := by
      constructor
      · norm_num [hourOf]
      · norm_num
    rw [if_pos hc1]
    norm_num

theorem stepA1 : dayStep cfgA (initState cfgA) = stA1 := by
  unfold dayStep stA1
  simp only [SimState.mk.injEq]
  refine ⟨elapsedA1, ?_, ?_, ?_, ?_, ?_, ?_⟩
  · norm_num [initState]
  · norm_num [initState]
  · unfold dRemDrive
    rw [availA1]
    simp only [initState, List.isEmpty_nil, if_true]
    norm_num [MAX_DRIVING_HOURS]
  · unfold dRemOnDuty3 dRemOnDuty
    rw [availA1, if_pos pickA1]
    simp only [initState, List.isEmpty_nil, if_true]
    norm_num [MAX_ON_DUTY_HOURS]
  · rw [availA1]
    norm_num [initState, cfgA, MAX_WEEKLY_HOURS]
  · rw [sheetA1_eq]
    simp [initState]

theorem availA2 : dAvail cfgA stA1 = 1 := by
  unfold dAvail dRemDrive dRemOnDuty stA1
  simp only [List.isEmpty_cons, if_false]
  rw [min_def, min_def, min_def]
  norm_num [MAX_DRIVING_HOURS, MAX_ON_DUTY_HOURS, cfgA]

theorem dT0A2 : dT0 stA1 = 32 := by
  norm_num [dT0, stA1]

theorem elapsedA2 : dElapsed cfgA stA1 = 12 := by
  unfold dElapsed
  rw [availA2]
  norm_num [stA1]

theorem pickA2 : dPickupP cfgA stA1 := by
  unfold dPickupP
  constructor
  · rw [elapsedA2]
    norm_num [cfgA]
  · unfold dActsB dActsA
    rw [availA2]
    norm_num [stA1]

theorem dT2A2 : dT2 cfgA stA1 = 133/4 := by
  unfold dT2
  rw [availA2, dT0A2]
  norm_num

theorem dT3A2 : dT3 cfgA stA1 = 137/4 := by
  unfold dT3
  rw [dT2A2, if_pos pickA2]
  norm_num

theorem dOffValA2 : dOffVal cfgA stA1 = 13 := by
  unfold dOffVal
  rw [dT3A2]
  norm_num [hourOf, minuteOf]

theorem sheetA2_eq : sheetOf cfgA stA1 = sheetA2 := by
  unfold sheetOf sheetA2
  simp only [LogSheet.mk.injEq]
  refine ⟨by simp [stA1], ?_, ?_, ?_, ?_⟩
  · unfold dActsD dActsC dActsB dActsA
    rw [availA2, dT0A2, dT2A2, dT3A2, dOffValA2, if_pos pickA2]
    rw [if_pos (by norm_num : (0:ℚ) < 1)]
    have hc2 : hourOf (137/4 : ℚ) < 24 ∧ (0:ℤ) < 13 := by
      constructor
      · norm_num [hourOf]
      · norm_num
    rw [if_pos hc2]
    simp only [stA1, List.isEmpty_cons, if_false]
    norm_num [restActivity, preTripAct, driveAct, pickupAct, trailOffAct, hmOf, cfgA]
  · rw [availA2]
    norm_num
  · unfold dOnDuty3
    rw [availA2, if_pos pickA2]
    norm_num
  · unfold dOffTotal dOff0
    rw [dT3A2, dOffValA2]
    simp only [stA1, List.isEmpty_cons, if_false]
    have hc2 : hourOf (137/4 : ℚ) < 24 ∧ (0:ℤ) < 13 := by
      constructor
      · norm_num [hourOf]
      · norm_num
    rw [if_pos hc2]
    norm_num

theorem stepA2 : dayStep cfgA stA1 = stA2 := by
  unfold dayStep stA2
  simp only [SimState.mk.injEq]
  refine ⟨elapsedA2, ?_, ?_, ?_, ?_, ?_, ?_⟩
  · norm_num [stA1]
  · norm_num [stA1]
  · unfold dRemDrive
    rw [availA2]
    simp only [stA1, List.isEmpty_cons, if_false]
    norm_num [MAX_DRIVING_HOURS]
  · unfold dRemOnDuty3 dRemOnDuty
    rw [availA2, if_pos pickA2]
    simp only [stA1, List.isEmpty_cons, if_false]
    norm_num [MAX_ON_DUTY_HOURS]
  · rw [availA2]
    norm_num [stA1]
  · rw [sheetA2_eq]
    simp [stA1]

theorem runA : generateEldLogs cfgA 2 = some [sheetA1, sheetA2] := by
  show runSim cfgA 2 (initState cfgA) = _
  rw [show (2:ℕ) = 1 + 1 from rfl, runSim_succ,
    if_pos (by norm_num [initState, cfgA] : (initState cfgA).elapsed < cfgA.totalDriveTime)]
  rw [stepA1]
  rw [show (1:ℕ) = 0 + 1 from rfl, runSim_succ,
    if_pos (by norm_num [stA1, cfgA] : stA1.elapsed < cfgA.totalDriveTime)]
  rw [stepA2, runSim_zero,
    if_neg (by norm_num [stA2, cfgA] : ¬ stA2.elapsed < cfgA.totalDriveTime)]
  rfl

/-- Claim C1: refuted.  In the cfgA run (12 h of driving starting at
midnight with a fresh cycle), the recorded segment durations of the first
day sum to 93/4 = 23.25 hours and those of the second day also sum to
23.25 hours, which misses 24 hours by 45 minutes, far outside the one
minute tolerance: the trailing off-duty block is truncated to whole
hours. -/
theorem day_sums_not_24 :
    (generateEldLogs cfgA 2).map (fun L => L.map sheetDurSum) = some [93/4, 93/4] ∧
    (1/60 : ℚ) < |(93/4 : ℚ) - 24| := by
  constructor
  · rw [runA]
    simp only [Option.map_some', List.map_cons, List.map_nil]
    norm_num [sheetDurSum, sheetA1, sheetA2]
  · rw [show (93/4 : ℚ) - 24 = -(3/4) by norm_num, abs_neg,
      abs_of_nonneg (by norm_num : (0:ℚ) ≤ 3/4)]
    norm_num

/-- Claim C4: refuted.  In the cfgA run the elapsed driving passes the
first leg after day one, yet a Pickup segment is appended on day two as
well (the guard that should mark pickup as already logged never fires),
so the run contains two Pickup segments; and although elapsed driving
reaches the total on day two, no Dropoff segment is ever appended because
the pickup branch shadows it. -/
theorem pickup_logged_twice :
    (generateEldLogs cfgA 2).map (fun L => (noteCount "Pickup" L, noteCount "Dropoff" L)) =
      some (2, 0) := by
  rw [runA]
  simp [noteCount, sheetA1, sheetA2]

/-- Claim C6: refuted.  A run with zero total drive time does not raise a
typed validation error: the loop is skipped and an empty list of daily
logs is returned as a successful result. -/
theorem zero_drive_returns_empty : generateEldLogs cfgZero 3 = some [] := rfl

/-- Claim C6 amended: for non-positive total drive time the simulation
loop is never entered and the function returns an empty list of daily
logs with no error; in that sense no partial per-day output is produced,
but no descriptive typed error is raised either. -/
theorem nonpositive_drive_no_error (cfg : SimCfg) (fuel : ℕ)
    (h : cfg.totalDriveTime ≤ 0) : generateEldLogs cfg fuel = some [] := by
  have hn : ¬ (initState cfg).elapsed < cfg.totalDriveTime := by
    show ¬ (0:ℚ) < cfg.totalDriveTime
    exact not_lt.mpr h
  show runSim cfg fuel (initState cfg) = some []
  rw [runSim_of_ge cfg fuel (initState cfg) hn]
  rfl

/-- Witness for nonpositive_drive_no_error at cfgZero with fuel 7. -/
theorem nonpositive_drive_no_error_witness : generateEldLogs cfgZero 7 = some [] :=
  nonpositive_drive_no_error cfgZero 7 (by norm_num [cfgZero])

/-- Witness for later_days_within_caps: day two of the cfgA run. -/
theorem later_days_within_caps_witness :
    dutyDriveSumSheet ([sheetA1, sheetA2].getD 1 dSheet) ≤ MAX_DRIVING_HOURS ∧
    dutyOnSumSheet ([sheetA1, sheetA2].getD 1 dSheet) ≤ MAX_ON_DUTY_HOURS :=
  later_days_within_caps cfgA 2 [sheetA1, sheetA2] (by norm_num [cfgA])
    (by norm_num [cfgA, MAX_WEEKLY_HOURS]) runA 1 (le_refl 1) (by norm_num)

end HaulTrackr
